import Mathlib

/-!
Verification development for the sleeek-mcp-server repository.

The embedded program is `SleeekMCPServer` from src/index.js together with the
HTTP bridge in src/unnamed/part_000.  The only stateful component is the
per-(shoot, room) assessment context held in the JavaScript Map
`assessmentContexts`; `assessPhoto` (src/index.js lines 72-194) is the
orchestrator.  The external OpenAI vision call is modelled as an oracle
parameter of type `Except String String`: `Except.ok feedback` is a reply
whose message content is `feedback`, `Except.error e` is a thrown error
(network failure, quota, timeout).  Wall-clock time (the `new Date()`
timestamp stored in each assessment record) is likewise passed in as an
opaque string parameter.

JavaScript aliasing, which matters for the error path: `assessmentContexts.get`
returns a reference to the very object stored in the Map, so the in-place
field assignments `context.attempts = 0`, `context.assessments = []` (lines
92-93) and `context.attempts++` (line 97) are visible through the Map even
when the later `assessmentContexts.set` (line 173) is never reached because
the OpenAI call threw.  A context freshly created by the object literal at
lines 76-84 is, by contrast, not in the Map until `set` runs.  The embedding
reproduces exactly these observable Map contents on each path.
-/

namespace Sleeek

/-- A camera orientation triple, src/index.js inputSchema lines 46-53.
JavaScript numbers are modelled as rationals. -/
structure Angle where
  pitch : ℚ
  yaw : ℚ
  roll : ℚ
deriving DecidableEq, Repr

/-- One stored assessment record, src/index.js lines 162-168.  The
`timestamp` field holds the caller-supplied clock string standing for
`new Date().toISOString()`. -/
structure Assessment where
  timestamp : String
  attemptNumber : Nat
  feedback : String
  angle : Option Angle
  angleReset : Bool
deriving DecidableEq, Repr

/-- A session context, the object literal at src/index.js lines 76-84.
The JavaScript `Set` of constraints is insertion-ordered with unique
elements, modelled as a duplicate-free-by-construction list. -/
structure Session where
  shootId : Option String
  roomType : Option String
  attempts : Nat
  assessments : List Assessment
  constraints : List String
  lastAngle : Option Angle
  improvements : List String
deriving DecidableEq, Repr

/-- The request arguments of the assess_photo tool, src/index.js line 73.
Fields the schema marks required (line 55) are still `Option`: nothing in
the code enforces their presence, and JavaScript destructuring of a missing
field yields `undefined`. -/
structure Params where
  imageBase64 : Option String
  roomType : Option String
  shootId : Option String
  stackIndex : Option Int
  currentAngle : Option Angle
deriving DecidableEq, Repr

/-- The structured reply serialised by JSON.stringify at src/index.js
lines 179-186. -/
structure AssessResult where
  feedback : String
  attemptNumber : Nat
  angleReset : Bool
  score : Nat
  isAcceptable : Bool
  constraints : List String
deriving DecidableEq, Repr

/-- A JSON value, used only to state which fields the serialised reply
carries and in which order. -/
inductive JVal where
  | str (s : String)
  | num (n : Int)
  | bool (b : Bool)
  | arr (l : List JVal)

/-- The field list of the object passed to JSON.stringify at src/index.js
lines 179-186, in source order. -/
def responseFields (r : AssessResult) : List (String × JVal) :=
  [("feedback", JVal.str r.feedback),
   ("attemptNumber", JVal.num r.attemptNumber),
   ("angleReset", JVal.bool r.angleReset),
   ("score", JVal.num (Int.ofNat r.score)),
   ("isAcceptable", JVal.bool r.isAcceptable),
   ("constraints", JVal.arr (r.constraints.map JVal.str))]

/-- The `assessmentContexts` Map, src/index.js line 28, as an association
list in insertion order (JavaScript Map preserves insertion order and the
code only inserts distinct keys via `set`). -/
abbrev Store := List (String × Session)

/-- The empty Map a fresh `SleeekMCPServer` constructor produces. -/
def Store.empty : Store := []

/-- `assessmentContexts.get(key)`. -/
def Store.get : Store → String → Option Session
  | [], _ => none
  | q :: rest, k => if q.1 = k then some q.2 else Store.get rest k

/-- `assessmentContexts.set(key, context)`: replace the entry in place if the
key is present, append otherwise (JavaScript Map semantics). -/
def Store.set : Store → String → Session → Store
  | [], k, s => [(k, s)]
  | q :: rest, k, s => if q.1 = k then (k, s) :: rest else q :: Store.set rest k s

/-- Interpolation of a possibly-missing string into a template literal:
JavaScript renders `undefined` as the string "undefined". -/
def jsStr (o : Option String) : String := o.getD "undefined"

/-- The context key built at src/index.js line 75. -/
def contextKeyOf (p : Params) : String := jsStr p.shootId ++ ":" ++ jsStr p.roomType

/-- The fresh context object literal, src/index.js lines 76-84. -/
def freshSession (p : Params) : Session :=
  { shootId := p.shootId
    roomType := p.roomType
    attempts := 0
    assessments := []
    constraints := []
    lastAngle := none
    improvements := [] }

/-- `assessmentContexts.get(contextKey) || freshLiteral`, src/index.js
line 76. -/
def getOrFresh (σ : Store) (p : Params) : Session :=
  match Store.get σ (contextKeyOf p) with
  | some c => c
  | none => freshSession p

/-- Whether the Map already held the key before the call; on the error path
this decides whether the in-place mutations are visible in the Map. -/
def existedIn (σ : Store) (p : Params) : Bool :=
  (Store.get σ (contextKeyOf p)).isSome

/-- The square of `calculateAngleDifference`, src/index.js lines 196-202.
The source computes `Math.sqrt(dPitch*dPitch + dYaw*dYaw + dRoll*dRoll)` and
its only use compares the result against 30; since the square root is
monotone and its argument is nonnegative, the embedding keeps the squared
value and compares against 900, restoring the square-root form in the
theorems about the reset threshold.  The null guard returning 0 at line 197
is kept. -/
def calculateAngleDifferenceSq : Option Angle → Option Angle → ℚ
  | some a1, some a2 =>
      |a1.pitch - a2.pitch| ^ 2 + |a1.yaw - a2.yaw| ^ 2 + |a1.roll - a2.roll| ^ 2
  | _, _ => 0

/-- Lowercasing, `feedback.toLowerCase()` at src/index.js line 206. -/
def lowerStr (s : String) : String := String.mk (s.data.map Char.toLower)

/-- JavaScript `String.prototype.includes`: substring containment. -/
def strIncludes (s pat : String) : Bool :=
  s.data.tails.any (fun t => pat.data.isPrefixOf t)

/-- The apostrophe character, kept out of string literals. -/
def aposChar : Char := Char.ofNat 39

/-- The first match pattern at src/index.js line 208 (with an apostrophe
between `can` and `t`). -/
def cantMoveBackPat : String := "can" ++ String.singleton aposChar ++ "t move back"

/-- `extractConstraints`, src/index.js lines 204-216: case-insensitive
substring matching pushing the constraint strings in rule order. -/
def extractConstraints (feedback : String) : List String :=
  let lower := lowerStr feedback
  (if strIncludes lower cantMoveBackPat || strIncludes lower "cannot move back"
     then ["Limited space - cannot move back further"] else [])
  ++
  (if strIncludes lower "wall behind" || strIncludes lower "against wall"
     then ["Wall directly behind camera position"] else [])

/-- `calculateScore`, src/index.js lines 218-225. -/
def calculateScore : Nat → Nat
  | 1 => 75
  | 2 => 82
  | 3 => 88
  | _ => 90

/-- `context.constraints.add(c)`: a JavaScript Set add is a no-op on a
present element and appends otherwise (insertion order preserved). -/
def addConstraint (cs : List String) (c : String) : List String :=
  if c ∈ cs then cs else cs ++ [c]

/-- The synchronous prefix of `assessPhoto` that runs before the awaited
OpenAI call: context lookup or creation (lines 75-84), the angle-reset check
and in-place reset (lines 86-95), and the in-place increment (line 97). -/
structure PreState where
  contextKey : String
  existed : Bool
  angleReset : Bool
  ctx : Session
deriving DecidableEq, Repr

/-- The reset decision at src/index.js lines 88-90: the truthiness guard
`context.lastAngle && currentAngle` followed by the comparison
`angleDiff > 30`, the latter taken in squared form. -/
def resetTriggered (σ : Store) (p : Params) : Bool :=
  match (getOrFresh σ p).lastAngle, p.currentAngle with
  | some la, some ca =>
      decide ((900 : ℚ) < calculateAngleDifferenceSq (some la) (some ca))
  | _, _ => false

/-- src/index.js lines 75-97: context lookup or creation, the angle-reset
check with its in-place clearing (lines 91-94), and the in-place increment
(line 97). -/
def assessPre (σ : Store) (p : Params) : PreState :=
  let ctx0 := getOrFresh σ p
  let angleReset := resetTriggered σ p
  let ctx1 := if angleReset then { ctx0 with attempts := 0, assessments := [] } else ctx0
  { contextKey := contextKeyOf p
    existed := existedIn σ p
    angleReset := angleReset
    ctx := { ctx1 with attempts := ctx1.attempts + 1 } }

/-- The suffix of `assessPhoto` after the OpenAI call succeeded with message
content `feedback`: constraint extraction and merge (lines 157-159), the new
assessment record (lines 162-170), last-angle update (line 171), the Map
write (line 173) and the structured reply (lines 175-189).  The prompt
string built at lines 100-125 is sent to the external service and has no
effect on the session state or on any reply field, so it is not modelled. -/
def assessPost (σ : Store) (pre : PreState) (p : Params) (feedback now : String) :
    AssessResult × Store :=
  let detected := extractConstraints feedback
  let ctx3 := { pre.ctx with constraints := detected.foldl addConstraint pre.ctx.constraints }
  let record : Assessment :=
    { timestamp := now
      attemptNumber := ctx3.attempts
      feedback := feedback
      angle := p.currentAngle
      angleReset := pre.angleReset }
  let ctx4 := { ctx3 with assessments := ctx3.assessments ++ [record], lastAngle := p.currentAngle }
  ({ feedback := feedback
     attemptNumber := ctx4.attempts
     angleReset := pre.angleReset
     score := calculateScore ctx4.attempts
     isAcceptable := decide (3 ≤ ctx4.attempts)
     constraints := ctx4.constraints },
   Store.set σ pre.contextKey ctx4)

/-- `assessPhoto`, src/index.js lines 72-194, as a function of the starting
Map contents, the request, the vision-call outcome and the clock.  On the
error path the thrown error propagates (line 192) and `set` is never
reached, but for a context that was already in the Map the in-place
mutations of `assessPre` stay visible through the Map (reference aliasing);
a freshly created context object was never inserted. -/
def assessPhoto (σ : Store) (p : Params) (vision : Except String String) (now : String) :
    Except String AssessResult × Store :=
  let pre := assessPre σ p
  match vision with
  | Except.error e =>
      (Except.error e, if pre.existed then Store.set σ pre.contextKey pre.ctx else σ)
  | Except.ok feedback =>
      let (r, σ1) := assessPost σ pre p feedback now
      (Except.ok r, σ1)

/-- One call whose vision request succeeds: request, feedback, clock. -/
abbrev OkCall := Params × String × String

/-- Run one successful call, returning the reply and the new Map. -/
def assessOk (σ : Store) (c : OkCall) : AssessResult × Store :=
  assessPost σ (assessPre σ c.1) c.1 c.2.1 c.2.2

/-- A call together with its vision outcome: request, outcome, clock. -/
abbrev Call := Params × Except String String × String

/-- The Map contents after a sequence of calls against one server process. -/
def runCalls (σ : Store) : List Call → Store
  | [] => σ
  | c :: rest => runCalls (assessPhoto σ c.1 c.2.1 c.2.2).2 rest

/-- The Map contents after a sequence of successful calls. -/
def runOk (σ : Store) : List OkCall → Store
  | [] => σ
  | c :: rest => runOk (assessOk σ c).2 rest

/-- Direct in-process deployment: successive calls hit one long-lived
`SleeekMCPServer`, so the Map is carried from call to call. -/
def directResults (σ : Store) : List OkCall → List AssessResult
  | [] => []
  | c :: rest =>
      let (r, σ1) := assessOk σ c
      r :: directResults σ1 rest

/-- Bridge deployment, src/unnamed/part_000: each POST /assess spawns a new
`node index.js` child (line 31), whose `SleeekMCPServer` constructor creates
an empty `assessmentContexts` Map (src/index.js line 28), so every bridge
request is served from the empty Map. -/
def bridgeResults (calls : List OkCall) : List AssessResult :=
  calls.map (fun c => (assessOk Store.empty c).1)

/-- Two concurrent calls on a key absent from the Map, under the Node event
loop: each request runs its synchronous prefix (lookup miss, fresh context
object, increment) before either awaited OpenAI call resolves, then each
runs its suffix, the second `set` overwriting the first.  The two fresh
context objects are distinct, so neither sees the other until the writes. -/
def interleavedFreshPair (σ : Store) (p1 p2 : Params) (fb1 fb2 now1 now2 : String) :
    AssessResult × AssessResult × Store :=
  let pre1 := assessPre σ p1
  let pre2 := assessPre σ p2
  let (r1, σ1) := assessPost σ pre1 p1 fb1 now1
  let (r2, σ2) := assessPost σ1 pre2 p2 fb2 now2
  (r1, r2, σ2)

/-! Helper lemmas about the store and the orchestrator. -/

lemma Store.get_set_self (σ : Store) (k : String) (s : Session) :
    Store.get (Store.set σ k s) k = some s := by
  induction σ with
  | nil => simp [Store.set, Store.get]
  | cons q rest ih =>
      by_cases hq : q.1 = k
      · simp [Store.set, Store.get, hq]
      · simp [Store.set, Store.get, hq, ih]

lemma Store.get_set_ne (σ : Store) (k k1 : String) (s : Session) (h : k1 ≠ k) :
    Store.get (Store.set σ k s) k1 = Store.get σ k1 := by
  have h2 : ¬ (k = k1) := fun hh => h hh.symm
  induction σ with
  | nil => simp [Store.set, Store.get, h2]
  | cons q rest ih =>
      by_cases hq : q.1 = k
      · subst hq
        simp only [Store.set, if_pos rfl]
        simp [Store.get, h2]
      · simp only [Store.set, if_neg hq]
        by_cases hq1 : q.1 = k1
        · simp [Store.get, hq1]
        · simp [Store.get, hq1, ih]

lemma mem_foldl_addConstraint (l : List String) (cs : List String) (c : String)
    (h : c ∈ cs) : c ∈ l.foldl addConstraint cs := by
  induction l generalizing cs with
  | nil => simpa using h
  | cons a rest ih =>
      refine ih (addConstraint cs a) ?_
      unfold addConstraint
      split
      · exact h
      · exact List.mem_append_left _ h

lemma assessPre_contextKey (σ : Store) (p : Params) :
    (assessPre σ p).contextKey = contextKeyOf p := rfl

lemma assessPre_angleReset (σ : Store) (p : Params) :
    (assessPre σ p).angleReset = resetTriggered σ p := rfl

lemma assessPre_existed (σ : Store) (p : Params) :
    (assessPre σ p).existed = existedIn σ p := rfl

lemma assessPre_ctx (σ : Store) (p : Params) :
    (assessPre σ p).ctx =
      if resetTriggered σ p
      then { getOrFresh σ p with attempts := 1, assessments := [] }
      else { getOrFresh σ p with attempts := (getOrFresh σ p).attempts + 1 } := by
  cases hb : resetTriggered σ p with
  | true => simp [assessPre, hb]
  | false => simp [assessPre, hb]

lemma assessPre_ctx_constraints (σ : Store) (p : Params) :
    (assessPre σ p).ctx.constraints = (getOrFresh σ p).constraints := by
  rw [assessPre_ctx]
  split <;> rfl

lemma assessPre_ctx_improvements (σ : Store) (p : Params) :
    (assessPre σ p).ctx.improvements = (getOrFresh σ p).improvements := by
  rw [assessPre_ctx]
  split <;> rfl

lemma assessPost_store (σ : Store) (pre : PreState) (p : Params) (fb now : String) :
    (assessPost σ pre p fb now).2 = Store.set σ pre.contextKey
      { pre.ctx with
        constraints := (extractConstraints fb).foldl addConstraint pre.ctx.constraints
        assessments := pre.ctx.assessments ++
          [{ timestamp := now, attemptNumber := pre.ctx.attempts, feedback := fb,
             angle := p.currentAngle, angleReset := pre.angleReset }]
        lastAngle := p.currentAngle } := rfl

lemma assessPost_result (σ : Store) (pre : PreState) (p : Params) (fb now : String) :
    (assessPost σ pre p fb now).1 =
      { feedback := fb
        attemptNumber := pre.ctx.attempts
        angleReset := pre.angleReset
        score := calculateScore pre.ctx.attempts
        isAcceptable := decide (3 ≤ pre.ctx.attempts)
        constraints := (extractConstraints fb).foldl addConstraint pre.ctx.constraints } := rfl

lemma assessPhoto_ok (σ : Store) (p : Params) (fb now : String) :
    assessPhoto σ p (Except.ok fb) now =
      (Except.ok (assessPost σ (assessPre σ p) p fb now).1,
       (assessPost σ (assessPre σ p) p fb now).2) := rfl

lemma assessPhoto_err (σ : Store) (p : Params) (e now : String) :
    assessPhoto σ p (Except.error e) now =
      (Except.error e,
       if (assessPre σ p).existed
       then Store.set σ (assessPre σ p).contextKey (assessPre σ p).ctx
       else σ) := rfl

lemma getOrFresh_of_get (σ : Store) (p : Params) (s : Session)
    (h : Store.get σ (contextKeyOf p) = some s) : getOrFresh σ p = s := by
  unfold getOrFresh
  rw [h]

/-- The attempt-counter invariant: every stored session has its counter
equal to its history length. -/
def StoreInv (σ : Store) : Prop :=
  ∀ k s, Store.get σ k = some s → s.attempts = s.assessments.length

lemma storeInv_empty : StoreInv Store.empty := by
  intro k s h
  simp [Store.empty, Store.get] at h

lemma assessOk_preserves_inv (σ : Store) (c : OkCall) (hinv : StoreInv σ) :
    StoreInv (assessOk σ c).2 := by
  intro k s h
  unfold assessOk at h
  rw [assessPost_store, assessPre_contextKey] at h
  by_cases hk : k = contextKeyOf c.1
  · subst hk
    rw [Store.get_set_self] at h
    cases h
    rw [assessPre_ctx]
    split
    · simp
    · simp only [List.length_append, List.length_cons, List.length_nil]
      have := fun s hs => hinv (contextKeyOf c.1) s hs
      unfold getOrFresh
      cases hg : Store.get σ (contextKeyOf c.1) with
      | none => simp [freshSession]
      | some s0 => simpa using this s0 hg
  · rw [Store.get_set_ne _ _ _ _ hk] at h
    exact hinv k s h

lemma runOk_preserves_inv (σ : Store) (calls : List OkCall) (hinv : StoreInv σ) :
    StoreInv (runOk σ calls) := by
  induction calls generalizing σ with
  | nil => exact hinv
  | cons c rest ih => exact ih _ (assessOk_preserves_inv σ c hinv)

/-- The improvements field is never written by any code path. -/
def ImpInv (σ : Store) : Prop :=
  ∀ k s, Store.get σ k = some s → s.improvements = []

lemma impInv_empty : ImpInv Store.empty := by
  intro k s h
  simp [Store.empty, Store.get] at h

lemma getOrFresh_improvements (σ : Store) (p : Params) (himp : ImpInv σ) :
    (getOrFresh σ p).improvements = [] := by
  unfold getOrFresh
  cases hg : Store.get σ (contextKeyOf p) with
  | none => rfl
  | some s0 => exact himp _ s0 hg

lemma assessPhoto_preserves_impInv (σ : Store) (p : Params) (v : Except String String)
    (now : String) (himp : ImpInv σ) : ImpInv (assessPhoto σ p v now).2 := by
  intro k s h
  cases v with
  | error e =>
      rw [assessPhoto_err] at h
      simp only [assessPre_contextKey, assessPre_existed] at h
      by_cases he : existedIn σ p
      · rw [if_pos he] at h
        by_cases hk : k = contextKeyOf p
        · subst hk
          rw [Store.get_set_self] at h
          cases h
          rw [assessPre_ctx_improvements]
          exact getOrFresh_improvements σ p himp
        · rw [Store.get_set_ne _ _ _ _ hk] at h
          exact himp k s h
      · rw [if_neg he] at h
        exact himp k s h
  | ok fb =>
      rw [assessPhoto_ok] at h
      simp only at h
      rw [assessPost_store, assessPre_contextKey] at h
      by_cases hk : k = contextKeyOf p
      · subst hk
        rw [Store.get_set_self] at h
        cases h
        show (assessPre σ p).ctx.improvements = []
        rw [assessPre_ctx_improvements]
        exact getOrFresh_improvements σ p himp
      · rw [Store.get_set_ne _ _ _ _ hk] at h
        exact himp k s h

lemma runCalls_preserves_impInv (σ : Store) (calls : List Call) (himp : ImpInv σ) :
    ImpInv (runCalls σ calls) := by
  induction calls generalizing σ with
  | nil => exact himp
  | cons c rest ih => exact ih _ (assessPhoto_preserves_impInv σ c.1 c.2.1 c.2.2 himp)

/-- The square root folded into the 900 threshold is faithful: for the sum
of squares S computed by `calculateAngleDifferenceSq`, the source condition
`Math.sqrt(S) > 30` holds exactly when `S > 900`. -/
lemma reset_sqrt_bridge (la ca : Angle) :
    ((900 : ℚ) < calculateAngleDifferenceSq (some la) (some ca)) ↔
      (30 : ℝ) < Real.sqrt ((calculateAngleDifferenceSq (some la) (some ca) : ℚ) : ℝ) := by
  rw [Real.lt_sqrt (by norm_num : (0:ℝ) ≤ 30)]
  rw [show ((30:ℝ) ^ 2) = (((900 : ℚ) : ℝ)) by norm_num]
  constructor <;> intro h <;> exact_mod_cast h

lemma assessPhoto_ok_snd (σ : Store) (p : Params) (fb now : String) :
    (assessPhoto σ p (Except.ok fb) now).2 = (assessPost σ (assessPre σ p) p fb now).2 := rfl

lemma assessPhoto_ok_fst (σ : Store) (p : Params) (fb now : String) :
    (assessPhoto σ p (Except.ok fb) now).1 =
      Except.ok (assessPost σ (assessPre σ p) p fb now).1 := rfl

lemma assessPhoto_err_snd (σ : Store) (p : Params) (e now : String) :
    (assessPhoto σ p (Except.error e) now).2 =
      if (assessPre σ p).existed
      then Store.set σ (assessPre σ p).contextKey (assessPre σ p).ctx
      else σ := rfl

/-! Concrete requests and traces used by the claim theorems. -/

/-- A well-formed request with no orientation, key "s:kitchen". -/
def reqKitchen : Params :=
  { imageBase64 := some "img", roomType := some "kitchen", shootId := some "s",
    stackIndex := none, currentAngle := none }

/-- The Map after one successful call on a fresh server. -/
def storeAfterOneOk : Store := (assessOk Store.empty (reqKitchen, "Nice shot", "t1")).2

/-- A successful call followed by a call whose vision request throws. -/
def errorTrace : List Call :=
  [(reqKitchen, Except.ok "Nice shot", "t1"), (reqKitchen, Except.error "boom", "t2")]

/-- C1: the spec says a failed vision call leaves the session in its
pre-call state with no attempt-counter increment persisted.  The code
violates this: after one successful call the stored counter is 1, and a
second call whose vision request throws surfaces the error yet leaves the
stored counter at 2, because the in-place increment on the Map-held context
object is visible even though the success-path `set` never runs. -/
theorem C1_upstream_error_mutation_persists :
    (Store.get storeAfterOneOk "s:kitchen").map Session.attempts = some 1 ∧
    (assessPhoto storeAfterOneOk reqKitchen (Except.error "boom") "t2").1 = Except.error "boom" ∧
    (Store.get (assessPhoto storeAfterOneOk reqKitchen (Except.error "boom") "t2").2
        "s:kitchen").map Session.attempts = some 2 :=
  ⟨rfl, rfl, rfl⟩

/-- C2 counterexample: after the trace ok-then-error, the stored session for
"s:kitchen" has attempt counter 2 but only 1 assessment record, so the
invariant "counter equals history length after every call" is false as
stated. -/
theorem C2_invariant_fails_on_error_path :
    (Store.get (runCalls Store.empty errorTrace) "s:kitchen").map
      (fun s => decide (s.attempts = s.assessments.length)) = some false := rfl

/-- C2 (amended): after every assess call whose vision request succeeds, every
stored session has its attempt counter equal to the length of its
assessment-record sequence, including immediately after an angle reset; the
equality can only be broken by a call whose vision request fails. -/
theorem C2_counter_matches_history_on_success (calls : List OkCall) (k : String) (s : Session)
    (h : Store.get (runOk Store.empty calls) k = some s) :
    s.attempts = s.assessments.length :=
  runOk_preserves_inv Store.empty calls storeInv_empty k s h

/-- The session stored under "s:kitchen" after one successful call. -/
def sessionAfterOneOk : Session :=
  { shootId := some "s", roomType := some "kitchen", attempts := 1,
    assessments := [{ timestamp := "t1", attemptNumber := 1, feedback := "Nice shot",
                      angle := none, angleReset := false }],
    constraints := [], lastAngle := none, improvements := [] }

/-- C2 witness: the amended invariant instantiated on a concrete one-call
trace. -/
theorem C2_counter_matches_history_witness :
    sessionAfterOneOk.attempts = sessionAfterOneOk.assessments.length :=
  C2_counter_matches_history_on_success [(reqKitchen, "Nice shot", "t1")] "s:kitchen"
    sessionAfterOneOk rfl

/-- Two successive identical requests for the key "s:kitchen"; the first
feedback text carries a constraint. -/
def twoIdenticalCalls : List OkCall :=
  [(reqKitchen, "You cannot move back", "t1"), (reqKitchen, "Better now", "t2")]

/-- C3: the spec says the direct in-process variant and the bridge must be
interchangeable, with attempt numbers and constraints carried across
successive requests for the same key.  The code violates this: the bridge
spawns a fresh child process per request, so on the second identical request
the direct variant reports attempt 2 with the learned constraint while the
bridge reports attempt 1 with no constraints. -/
theorem C3_bridge_differs_from_direct :
    (directResults Store.empty twoIdenticalCalls).map AssessResult.attemptNumber = [1, 2] ∧
    (bridgeResults twoIdenticalCalls).map AssessResult.attemptNumber = [1, 1] ∧
    (directResults Store.empty twoIdenticalCalls).map AssessResult.constraints =
      [["Limited space - cannot move back further"], ["Limited space - cannot move back further"]] ∧
    (bridgeResults twoIdenticalCalls).map AssessResult.constraints =
      [["Limited space - cannot move back further"], []] :=
  ⟨rfl, rfl, rfl, rfl⟩

/-- C4: an angle reset is triggered iff both the stored last-seen orientation
and the request orientation are present and their dissimilarity (the square
root of the summed squared axis differences, as the source computes before
comparing against 30) strictly exceeds 30; when triggered and the vision call
succeeds, the reply reports attempt number 1, the stored history holds
exactly the one new record, and every previously known constraint is still
present. -/
theorem C4_angle_reset_boundary (σ : Store) (p : Params) (fb now : String) :
    ((assessPre σ p).angleReset = true ↔
      ∃ la ca, (getOrFresh σ p).lastAngle = some la ∧ p.currentAngle = some ca ∧
        (30 : ℝ) < Real.sqrt ((calculateAngleDifferenceSq (some la) (some ca) : ℚ) : ℝ)) ∧
    ((assessPre σ p).angleReset = true →
      ∃ r σ1, assessPhoto σ p (Except.ok fb) now = (Except.ok r, σ1) ∧
        r.attemptNumber = 1 ∧
        ∃ s1, Store.get σ1 (contextKeyOf p) = some s1 ∧
          s1.assessments.length = 1 ∧
          ∀ c ∈ (getOrFresh σ p).constraints, c ∈ s1.constraints) := by
  have hreset : (assessPre σ p).angleReset = resetTriggered σ p := assessPre_angleReset σ p
  constructor
  · rw [hreset]
    unfold resetTriggered
    cases hla : (getOrFresh σ p).lastAngle with
    | none => simp
    | some la =>
        cases hca : p.currentAngle with
        | none => simp
        | some ca =>
            simp only [decide_eq_true_eq, Option.some.injEq]
            constructor
            · intro h
              exact ⟨la, ca, rfl, rfl, (reset_sqrt_bridge la ca).mp h⟩
            · rintro ⟨la2, ca2, h1, h2, h3⟩
              cases h1
              cases h2
              exact (reset_sqrt_bridge _ _).mpr h3
  · intro hr
    have hrt : resetTriggered σ p = true := by rw [← hreset]; exact hr
    refine ⟨(assessPost σ (assessPre σ p) p fb now).1,
            (assessPost σ (assessPre σ p) p fb now).2, rfl, ?_, ?_⟩
    · rw [assessPost_result]
      show (assessPre σ p).ctx.attempts = 1
      rw [assessPre_ctx, hrt, if_pos rfl]
    · rw [assessPost_store, assessPre_contextKey]
      refine ⟨_, Store.get_set_self σ _ _, ?_, ?_⟩
      · show ((assessPre σ p).ctx.assessments ++ [_]).length = 1
        rw [assessPre_ctx, hrt, if_pos rfl]
        rfl
      · intro c hcmem
        show c ∈ (extractConstraints fb).foldl addConstraint (assessPre σ p).ctx.constraints
        rw [assessPre_ctx_constraints]
        exact mem_foldl_addConstraint _ _ _ hcmem

/-- A session whose last-seen orientation is the zero triple, with a learned
constraint, as after two calls at one camera position. -/
def resetSession : Session :=
  { shootId := some "s", roomType := some "living", attempts := 2,
    assessments :=
      [{ timestamp := "t1", attemptNumber := 1, feedback := "You cannot move back",
         angle := some ⟨0, 0, 0⟩, angleReset := false },
       { timestamp := "t2", attemptNumber := 2, feedback := "Try a wider shot",
         angle := some ⟨0, 0, 0⟩, angleReset := false }],
    constraints := ["Limited space - cannot move back further"],
    lastAngle := some ⟨0, 0, 0⟩, improvements := [] }

/-- A store holding `resetSession` under "s:living". -/
def resetStore : Store := Store.set Store.empty "s:living" resetSession

/-- A request for the same key whose orientation is 45 degrees of yawless
pitch away from the stored one: dissimilarity 45 > 30. -/
def reqLivingTurn : Params :=
  { imageBase64 := some "img", roomType := some "living", shootId := some "s",
    stackIndex := none, currentAngle := some ⟨45, 0, 0⟩ }

/-- C4 witness: the reset fires on the concrete 45-degree turn and the
conclusions of the reset theorem hold there. -/
theorem C4_angle_reset_witness :
    (assessPre resetStore reqLivingTurn).angleReset = true ∧
    (∃ r σ1, assessPhoto resetStore reqLivingTurn (Except.ok "good shot") "t3" =
        (Except.ok r, σ1) ∧
      r.attemptNumber = 1 ∧
      ∃ s1, Store.get σ1 (contextKeyOf reqLivingTurn) = some s1 ∧
        s1.assessments.length = 1 ∧
        ∀ c ∈ (getOrFresh resetStore reqLivingTurn).constraints, c ∈ s1.constraints) := by
  have hr : (assessPre resetStore reqLivingTurn).angleReset = true := by
    simp [assessPre, resetTriggered, getOrFresh, contextKeyOf, jsStr, resetStore,
          resetSession, reqLivingTurn, Store.set, Store.empty, Store.get,
          calculateAngleDifferenceSq]
    norm_num
  exact ⟨hr, (C4_angle_reset_boundary resetStore reqLivingTurn "good shot" "t3").2 hr⟩

lemma calculateScore_of_ge_four (n : Nat) (h : 4 ≤ n) : calculateScore n = 90 := by
  match n, h with
  | (m + 4), _ => rfl

lemma calculateScore_mono (a b : Nat) (ha : 1 ≤ a) (hab : a ≤ b) :
    calculateScore a ≤ calculateScore b := by
  have hb1 : 1 ≤ b := le_trans ha hab
  rcases Nat.lt_or_ge a 4 with h4 | h4
  · rcases Nat.lt_or_ge b 4 with hb4 | hb4
    · interval_cases a <;> interval_cases b <;> simp only [calculateScore] <;> omega
    · rw [calculateScore_of_ge_four b hb4]
      interval_cases a <;> simp only [calculateScore] <;> omega
  · rw [calculateScore_of_ge_four a h4, calculateScore_of_ge_four b (le_trans h4 hab)]

/-- C5: the Score Policy is the staircase 1 to 75, 2 to 82, 3 to 88, and 90
from 4 on, non-decreasing on attempt numbers at least 1, and a successful
reply carries exactly that score for its attempt number and is acceptable
iff the attempt number is at least 3. -/
theorem C5_score_policy (n : Nat) (h1 : 1 ≤ n) (σ : Store) (p : Params) (fb now : String) :
    calculateScore 1 = 75 ∧ calculateScore 2 = 82 ∧ calculateScore 3 = 88 ∧
    (4 ≤ n → calculateScore n = 90) ∧
    (∀ m, n ≤ m → calculateScore n ≤ calculateScore m) ∧
    (∀ r σ1, assessPhoto σ p (Except.ok fb) now = (Except.ok r, σ1) →
      r.score = calculateScore r.attemptNumber ∧
      (r.isAcceptable = true ↔ 3 ≤ r.attemptNumber)) := by
  refine ⟨rfl, rfl, rfl, fun h4 => calculateScore_of_ge_four n h4,
          fun m hm => calculateScore_mono n m h1 hm, ?_⟩
  intro r σ1 heq
  have hfst := congrArg Prod.fst heq
  rw [assessPhoto_ok_fst] at hfst
  have hr : r = (assessPost σ (assessPre σ p) p fb now).1 := by
    cases hfst
    rfl
  subst hr
  rw [assessPost_result]
  exact ⟨rfl, by simp⟩

/-- C5 witness: the staircase value at 5 and the acceptability equivalence on
a concrete successful call. -/
theorem C5_score_policy_witness :
    calculateScore 5 = 90 ∧
    ((assessOk Store.empty (reqKitchen, "ok", "t1")).1.isAcceptable = true ↔
      3 ≤ (assessOk Store.empty (reqKitchen, "ok", "t1")).1.attemptNumber) := by
  have h := C5_score_policy 5 (by decide) Store.empty reqKitchen "ok" "t1"
  refine ⟨h.2.2.2.1 (by decide), ?_⟩
  exact (h.2.2.2.2.2 (assessOk Store.empty (reqKitchen, "ok", "t1")).1
    (assessOk Store.empty (reqKitchen, "ok", "t1")).2 rfl).2

/-- C6: across every assess call, successful or failed, resetting or not,
every constraint stored for any session before the call is still stored for
that session after it. -/
theorem C6_constraints_non_shrinking (σ : Store) (p : Params) (v : Except String String)
    (now k c : String) (s : Session) (hget : Store.get σ k = some s)
    (hc : c ∈ s.constraints) :
    ∃ s1, Store.get (assessPhoto σ p v now).2 k = some s1 ∧ c ∈ s1.constraints := by
  by_cases hk : k = contextKeyOf p
  · subst hk
    have hfresh : getOrFresh σ p = s := getOrFresh_of_get σ p s hget
    cases v with
    | error e =>
        rw [assessPhoto_err_snd]
        have hex : (assessPre σ p).existed = true := by
          rw [assessPre_existed]
          unfold existedIn
          rw [hget]
          rfl
        rw [hex, if_pos rfl, assessPre_contextKey]
        refine ⟨(assessPre σ p).ctx, Store.get_set_self σ _ _, ?_⟩
        rw [assessPre_ctx_constraints, hfresh]
        exact hc
    | ok fb =>
        rw [assessPhoto_ok_snd, assessPost_store, assessPre_contextKey]
        refine ⟨_, Store.get_set_self σ _ _, ?_⟩
        show c ∈ (extractConstraints fb).foldl addConstraint (assessPre σ p).ctx.constraints
        rw [assessPre_ctx_constraints, hfresh]
        exact mem_foldl_addConstraint _ _ _ hc
  · cases v with
    | error e =>
        rw [assessPhoto_err_snd]
        by_cases hex : (assessPre σ p).existed = true
        · rw [hex, if_pos rfl, assessPre_contextKey,
              Store.get_set_ne _ _ _ _ hk, hget]
          exact ⟨s, rfl, hc⟩
        · rw [Bool.not_eq_true] at hex
          rw [hex]
          simp only [Bool.false_eq_true, if_false]
          exact ⟨s, hget, hc⟩
    | ok fb =>
        rw [assessPhoto_ok_snd, assessPost_store, assessPre_contextKey,
            Store.get_set_ne _ _ _ _ hk, hget]
        exact ⟨s, rfl, hc⟩

/-- A stored session already holding a learned constraint. -/
def constraintSession : Session :=
  { shootId := some "s", roomType := some "kitchen", attempts := 1,
    assessments := [{ timestamp := "t1", attemptNumber := 1,
                      feedback := "You cannot move back", angle := none, angleReset := false }],
    constraints := ["Limited space - cannot move back further"],
    lastAngle := none, improvements := [] }

/-- A store holding `constraintSession` under "s:kitchen". -/
def constraintStore : Store := Store.set Store.empty "s:kitchen" constraintSession

/-- C6 witness: the constraint survives a call whose vision request throws. -/
theorem C6_constraints_witness :
    ∃ s1, Store.get (assessPhoto constraintStore reqKitchen (Except.error "boom") "t2").2
        "s:kitchen" = some s1 ∧
      "Limited space - cannot move back further" ∈ s1.constraints :=
  C6_constraints_non_shrinking constraintStore reqKitchen (Except.error "boom") "t2"
    "s:kitchen" "Limited space - cannot move back further" constraintSession rfl
    (by decide)

/-- A request whose required roomType field is missing. -/
def reqMissingRoom : Params :=
  { imageBase64 := some "img", roomType := none, shootId := some "s",
    stackIndex := none, currentAngle := none }

/-- C7: the spec says a request with a missing required field gets a
validation error, no external call, and no session.  The code violates
this: nothing enforces the declared required list, so with roomType missing
the call proceeds, consumes the vision reply as feedback, and creates a
session under the key "s:undefined" built by interpolating the undefined
field. -/
theorem C7_no_validation_performed :
    (assessPhoto Store.empty reqMissingRoom (Except.ok "Nice framing") "t0").1 =
      Except.ok { feedback := "Nice framing", attemptNumber := 1, angleReset := false,
                  score := 75, isAcceptable := false, constraints := [] } ∧
    (Store.get (assessPhoto Store.empty reqMissingRoom (Except.ok "Nice framing") "t0").2
        "s:undefined").isSome = true :=
  ⟨rfl, rfl⟩

/-- C8 counterexample: the extractor fires on the claimed trigger texts, but
the produced constraint strings are "Limited space - cannot move back
further" and "Wall directly behind camera position", so the exact tags the
claim names are not members of the result. -/
theorem C8_claimed_tags_absent :
    strIncludes (lowerStr "You cannot move back any further") "cannot move back" = true ∧
    ¬ ("cannot move back further" ∈ extractConstraints "You cannot move back any further") ∧
    strIncludes (lowerStr "The camera is against wall here") "against wall" = true ∧
    ¬ ("wall directly behind camera position" ∈
        extractConstraints "The camera is against wall here") :=
  ⟨rfl, by decide, rfl, by decide⟩

/-- C8 (amended): the extractor lowercases the text and does substring
matching; a text containing a move-back trigger yields exactly the member
"Limited space - cannot move back further", a text containing a wall trigger
yields exactly the member "Wall directly behind camera position", the rules
fire independently, and a text matching no rule yields the empty list. -/
theorem C8_extractor_amended (s : String) :
    ((strIncludes (lowerStr s) cantMoveBackPat
        || strIncludes (lowerStr s) "cannot move back") = true ↔
      "Limited space - cannot move back further" ∈ extractConstraints s) ∧
    ((strIncludes (lowerStr s) "wall behind"
        || strIncludes (lowerStr s) "against wall") = true ↔
      "Wall directly behind camera position" ∈ extractConstraints s) ∧
    ((strIncludes (lowerStr s) cantMoveBackPat
        || strIncludes (lowerStr s) "cannot move back") = false →
      (strIncludes (lowerStr s) "wall behind"
        || strIncludes (lowerStr s) "against wall") = false →
      extractConstraints s = []) := by
  unfold extractConstraints
  cases h1 : (strIncludes (lowerStr s) cantMoveBackPat
      || strIncludes (lowerStr s) "cannot move back") <;>
    cases h2 : (strIncludes (lowerStr s) "wall behind"
      || strIncludes (lowerStr s) "against wall") <;>
    simp [h1, h2]

/-- C8 witness: the wall rule fires on a concrete text. -/
theorem C8_extractor_witness :
    "Wall directly behind camera position" ∈
      extractConstraints "There is a wall behind you" :=
  ((C8_extractor_amended "There is a wall behind you").2.1).mp rfl

/-- Two successful calls, bringing the session to attempt 2. -/
def twoOkCalls : List OkCall := [(reqKitchen, "a", "t1"), (reqKitchen, "b", "t2")]

/-- The reply of the third successful call, which is acceptable. -/
def acceptableReply : AssessResult :=
  (assessOk (runOk Store.empty twoOkCalls) (reqKitchen, "c", "t3")).1

/-- C9 counterexample: a concrete acceptable reply carries no improvements
field at all, so the claim that every successful reply contains an
improvements list is false as stated. -/
theorem C9_improvements_field_missing :
    acceptableReply.isAcceptable = true ∧
    ¬ ("improvements" ∈ (responseFields acceptableReply).map Prod.fst) :=
  ⟨rfl, by decide⟩

/-- C9 (amended): the serialised reply carries exactly the fields feedback,
attemptNumber, angleReset, score, isAcceptable and constraints — no
improvements list — and the improvements field every session carries is
never written, so it stays empty after every call, acceptable or not. -/
theorem C9_no_improvements_in_reply (r : AssessResult) (calls : List Call) (k : String)
    (s : Session) (h : Store.get (runCalls Store.empty calls) k = some s) :
    ¬ ("improvements" ∈ (responseFields r).map Prod.fst) ∧ s.improvements = [] := by
  constructor
  · simp [responseFields]
  · exact runCalls_preserves_impInv Store.empty calls impInv_empty k s h

/-- C9 witness: the amended statement instantiated on a concrete reply and a
concrete one-call trace. -/
theorem C9_no_improvements_witness :
    ¬ ("improvements" ∈ (responseFields acceptableReply).map Prod.fst) ∧
    sessionAfterOneOk.improvements = [] :=
  C9_no_improvements_in_reply acceptableReply [(reqKitchen, Except.ok "Nice shot", "t1")]
    "s:kitchen" sessionAfterOneOk rfl

/-- A well-formed request for the fresh key "s:living". -/
def reqLiving : Params :=
  { imageBase64 := some "i", roomType := some "living", shootId := some "s",
    stackIndex := none, currentAngle := none }

/-- The two-request interleaving on the fresh key: both synchronous prefixes
run before either vision call resolves. -/
def lostUpdateRun : AssessResult × AssessResult × Store :=
  interleavedFreshPair Store.empty reqLiving reqLiving
    "You cannot move back" "Try a wider shot" "t1" "t2"

/-- C10: the spec says two concurrent assess calls on the same key never
both observe counter 0 before incrementing.  The code violates this: with
no per-key serialization, two requests for a fresh key that are both parked
at the awaited vision call each created their own fresh context, both
replies report attempt 1, and the final store holds a single one-record
session with no constraints — the first call's attempt record and learned
constraint are lost. -/
theorem C10_concurrent_lost_update :
    lostUpdateRun.1.attemptNumber = 1 ∧
    lostUpdateRun.2.1.attemptNumber = 1 ∧
    lostUpdateRun.1.constraints = ["Limited space - cannot move back further"] ∧
    (Store.get lostUpdateRun.2.2 "s:living").map
      (fun s => (s.attempts, s.assessments.length, s.constraints)) = some (1, 1, []) :=
  ⟨rfl, rfl, rfl, rfl⟩

end Sleeek
